import Mathlib

/-!
Shallow embedding of the belaykit streaming-agent client library.

The embedding covers the two provider adapters and their run orchestration:

* the codex variant (src/codex/codex.go): heterogeneous type-string schema,
  a mutable run-state accumulator (`RunState`), a decode loop over tagged
  stdout/stderr lines, and exit finalization guarded by `resultEmitted`;
* the claude variant (src/claude.go): a single self-describing envelope
  (`streamEvent`) decoded per stdout line, with in-loop dispatch of terminal
  result events and completion records;
* the line multiplexer (`streamLines`): per-source scanning with a bounded
  maximum token size.

JSON numbers are modelled as rationals (assignment-only in the code paths
modelled: the adapters never perform arithmetic on them, so no floating-point
behavior is involved).  Pass-through fields that no property observes
(`RawJSON`, `ToolInput`) are omitted from the event model; the event handler
and output stream are modelled by their presence flags plus the ordered list
of values that would be handed to them.
-/

namespace BelayKit

/-- A decoded JSON value, as produced by encoding/json into `any`:
numbers become float64 (modelled as a rational), objects become
string-keyed maps (modelled as association lists, last duplicate wins). -/
inductive JSON where
  | null
  | bool (b : Bool)
  | num (q : Rat)
  | str (s : String)
  | arr (elems : List JSON)
  | obj (fields : List (String × JSON))

/-- Look up a key in a decoded JSON object.  encoding/json keeps the last
value for a duplicated key, so the fold keeps the last match. -/
def jLookup (fields : List (String × JSON)) (k : String) : Option JSON :=
  fields.foldl (fun acc kv => if kv.1 = k then some kv.2 else acc) none

/-- Go `payload[k].(string)` with the error value ignored: the empty string
results when the key is absent or the value is not a string. -/
def jString (fields : List (String × JSON)) (k : String) : String :=
  match jLookup fields k with
  | some (.str s) => s
  | _ => none.getD ""

/-- Go `payload[k].(map[string]any)` returning the ok flag as an option. -/
def jObjField (fields : List (String × JSON)) (k : String) :
    Option (List (String × JSON)) :=
  match jLookup fields k with
  | some (.obj f) => some f
  | _ => none

/-- Go `floatField`: the key must be present and hold a JSON number. -/
def floatField (fields : List (String × JSON)) (k : String) : Option Rat :=
  match jLookup fields k with
  | some (.num q) => some q
  | _ => none

/-- Go `int64(f)` for `f : float64`: truncation toward zero. -/
def int64OfRat (q : Rat) : Int :=
  if q < 0 then -((-q).floor) else q.floor

/-- Go `int64Field`: a present JSON number, truncated to an integer. -/
def int64Field (fields : List (String × JSON)) (k : String) : Option Int :=
  (floatField fields k).map int64OfRat

/-- Whether the first character list starts the second. -/
def listStartsWith : List Char → List Char → Bool
  | [], _ => true
  | _ :: _, [] => false
  | c :: cs, d :: ds => c == d && listStartsWith cs ds

/-- Whether the needle occurs as a contiguous run inside the haystack. -/
def listContainsSeq (needle : List Char) : List Char → Bool
  | [] => listStartsWith needle []
  | c :: rest => listStartsWith needle (c :: rest) || listContainsSeq needle rest

/-- Go `strings.Contains s sub` (substring containment). -/
def strContains (s sub : String) : Bool :=
  listContainsSeq sub.data s.data

/-- Go `looksLikeAssistantEvent` from src/codex/codex.go. -/
def looksLikeAssistantEvent (eventType : String) : Bool :=
  if eventType = "" then false
  else if strContains eventType "error" || strContains eventType "failed" then false
  else strContains eventType "assistant" || strContains eventType "message" ||
    strContains eventType "output_text"

/-- First key of the list whose value is a non-empty string (the top-level
candidate scan in `extractAssistantText`). -/
def firstNonEmptyKey (fields : List (String × JSON)) : List String → String
  | [] => ""
  | k :: rest =>
    if jString fields k ≠ "" then jString fields k else firstNonEmptyKey fields rest

/-- First non-empty "text" entry of an `item.content` array; non-object
blocks and blocks without a non-empty text are skipped. -/
def firstBlockText : List JSON → String
  | [] => ""
  | .obj m :: rest =>
    if jString m "text" ≠ "" then jString m "text" else firstBlockText rest
  | _ :: rest => firstBlockText rest

/-- Go `extractAssistantText` from src/codex/codex.go. -/
def extractAssistantText (eventType : String) (payload : List (String × JSON)) : String :=
  if looksLikeAssistantEvent eventType then
    if firstNonEmptyKey payload ["delta", "text", "output_text"] ≠ "" then
      firstNonEmptyKey payload ["delta", "text", "output_text"]
    else
      let fromMsg := match jObjField payload "message" with
        | some m => jString m "text"
        | none => ""
      if fromMsg ≠ "" then fromMsg
      else match jObjField payload "item" with
        | some item =>
          if jString item "text" ≠ "" then jString item "text"
          else match jLookup item "content" with
            | some (.arr blocks) => firstBlockText blocks
            | _ => ""
        | none => ""
  else ""

/-- Go `extractErrorMessage` from src/codex/codex.go. -/
def extractErrorMessage (payload : List (String × JSON)) : String :=
  if jString payload "message" ≠ "" then jString payload "message"
  else match jObjField payload "error" with
    | some errObj => jString errObj "message"
    | none => ""

/-- Normalized event kinds shared by both adapters. -/
inductive EventType where
  | system
  | assistant
  | assistantStart
  | toolUse
  | toolResult
  | result
  | resultError
deriving DecidableEq

/-- A normalized event handed to the caller-supplied handler.  `RawJSON`
and `ToolInput` (opaque pass-through copies of the input line) are omitted. -/
structure Event where
  type : EventType
  text : String := ""
  sessionID : String := ""
  subtype : String := ""
  toolName : String := ""
  toolID : String := ""
  costUSD : Rat := 0
  duration : Int := 0
  numTurns : Int := 0
  isError : Bool := false
deriving DecidableEq

/-- Go `runState` from src/codex/codex.go. -/
structure RunState where
  sessionID : String := ""
  assistantText : String := ""
  lastError : String := ""
  costUSD : Rat := 0
  durationMS : Int := 0
  numTurns : Int := 0
  resultEmitted : Bool := false
deriving DecidableEq

/-- The exact-match switch of `handleJSONLine` (thread.started /
turn.started / turn.failed), returning the updated state and the events
the handler receives (empty when no handler is installed). -/
def switchStep (s : RunState) (eventType : String) (payload : List (String × JSON))
    (handlerPresent : Bool) : RunState × List Event :=
  if eventType = "thread.started" then
    if jString payload "thread_id" ≠ "" then
      ({ s with sessionID := jString payload "thread_id" },
        if handlerPresent then
          [{ type := .system, sessionID := jString payload "thread_id", subtype := "init" }]
        else [])
    else (s, [])
  else if eventType = "turn.started" then
    ({ s with numTurns := s.numTurns + 1 },
      if handlerPresent then [{ type := .assistantStart }] else [])
  else if eventType = "turn.failed" then
    let msg := if extractErrorMessage payload = "" then "codex run failed"
      else extractErrorMessage payload
    ({ s with lastError := msg, resultEmitted := true },
      if handlerPresent then [{ type := .resultError, text := msg, isError := true }] else [])
  else (s, [])

/-- The unconditional cost/duration harvest of `handleJSONLine`. -/
def harvestCostDuration (s : RunState) (payload : List (String × JSON)) : RunState :=
  let s1 := match floatField payload "cost_usd" with
    | some v => { s with costUSD := v }
    | none => s
  match int64Field payload "duration_ms" with
  | some v => { s1 with durationMS := v }
  | none => s1

/-- The assistant-text extraction tail of `handleJSONLine`: appends to the
accumulated text, tees to the output stream, and emits an assistant event. -/
def assistantTextStep (s : RunState) (eventType : String)
    (payload : List (String × JSON)) (handlerPresent outputStreamPresent : Bool) :
    RunState × List Event × List String :=
  if extractAssistantText eventType payload ≠ "" then
    ({ s with assistantText := s.assistantText ++ extractAssistantText eventType payload },
      if handlerPresent then
        [{ type := .assistant, text := extractAssistantText eventType payload }]
      else [],
      if outputStreamPresent then [extractAssistantText eventType payload] else [])
  else (s, [], [])

/-- Go `handleJSONLine` from src/codex/codex.go: unmarshal the decoded line
into a string-keyed object (anything else returns with no effect), run the
type switch, harvest cost/duration, then extract assistant text. -/
def handleJSONLine (s : RunState) (v : JSON) (handlerPresent outputStreamPresent : Bool) :
    RunState × List Event × List String :=
  match v with
  | .obj payload =>
    let r1 := switchStep s (jString payload "type") payload handlerPresent
    let s2 := harvestCostDuration r1.1 payload
    let r3 := assistantTextStep s2 (jString payload "type") payload
      handlerPresent outputStreamPresent
    (r3.1, r1.2 ++ r3.2.1, r3.2.2)
  | _ => (s, [], [])

/-- One tagged line from the multiplexed stdout/stderr stream, as seen by
the decode loop.  `malformed` stands for a body that fails `json.Valid`;
`value` stands for a body that is valid JSON, carrying its decoded value. -/
inductive LineBody where
  | malformed (text : String)
  | value (v : JSON)

/-- Go `streamLine` (src/codex/codex.go): body plus the stderr tag. -/
structure StreamLine where
  body : LineBody
  fromStderr : Bool

/-- Result of the codex decode loop over the multiplexed lines: final run
state, accumulated stderr diagnostic buffer, events dispatched to the
handler, and text chunks written to the output stream, all in order. -/
structure DecodeOut where
  state : RunState
  stderrBuf : String
  events : List Event
  tee : List String

/-- The codex consumer loop (src/codex/codex.go, `Run`): a line that fails
`json.Valid` is dropped, except that a stderr line is appended (with a
newline) to the diagnostic buffer; a valid line goes to `handleJSONLine`. -/
def codexDecode (handlerPresent outputStreamPresent : Bool) (s : RunState)
    (buf : String) : List StreamLine → DecodeOut
  | [] => ⟨s, buf, [], []⟩
  | l :: rest =>
    match l.body with
    | .malformed t =>
      codexDecode handlerPresent outputStreamPresent s
        (if l.fromStderr then buf ++ t ++ "\n" else buf) rest
    | .value v =>
      let r := handleJSONLine s v handlerPresent outputStreamPresent
      let out := codexDecode handlerPresent outputStreamPresent r.1 buf rest
      ⟨out.state, out.stderrBuf, r.2.1 ++ out.events, r.2.2 ++ out.tee⟩

/-- Go `rack.RunConfig`, by its use sites in src/codex/codex.go and the
option constructors exercised by the tests: per-run options folded into one
record.  Handler and output stream are modelled by presence flags. -/
structure RunConfig where
  model : String := ""
  maxTurns : Int := 0
  maxOutputTokens : Int := 0
  allowedTools : List String := []
  disallowedTools : List String := []
  systemPrompt : String := ""
  traceID : String := ""
  hasEventHandler : Bool := false
  hasOutputStream : Bool := false

/-- Go `validateRunConfig` from src/codex/codex.go: the first unsupported
option, in source order, or none. -/
def validateRunConfig (cfg : RunConfig) : Option String :=
  if 0 < cfg.maxTurns then some "WithMaxTurns"
  else if 0 < cfg.maxOutputTokens then some "WithMaxOutputTokens"
  else if 0 < cfg.allowedTools.length then some "WithAllowedTools"
  else if 0 < cfg.disallowedTools.length then some "WithDisallowedTools"
  else none

/-- Go `composePrompt` from src/codex/codex.go. -/
def composePrompt (systemPrompt prompt : String) : String :=
  if systemPrompt = "" then prompt
  else "System instructions:\n" ++ systemPrompt ++ "\n\nUser prompt:\n" ++ prompt

/-- The client-level configuration relevant to a run: default model plus
presence of the default handler and of the observability provider. -/
structure Client where
  defaultModel : String := ""
  hasDefaultHandler : Bool := false
  hasObservability : Bool := false

/-- Go `rack.CompletionRecord` as dispatched to `RecordCompletion`. -/
structure CompletionRecord where
  traceID : String := ""
  sessionID : String := ""
  prompt : String := ""
  response : String := ""
  model : String := ""
  costUSD : Rat := 0
  durationMS : Int := 0
  numTurns : Int := 0
  isError : Bool := false
deriving DecidableEq

/-- The error a run can return: the distinct unsupported-option error, the
context cancellation error returned directly (carrying the context error
text), or the wrapped `ExitError` carrying the stderr diagnostic buffer. -/
inductive RunError where
  | unsupportedOption (option : String)
  | ctxCanceled (err : String)
  | exitError (stderr : String)
deriving DecidableEq

/-- The `(Result, error)` pair returned by `Run`. -/
inductive RunResult where
  | ok (text : String)
  | err (e : RunError)
deriving DecidableEq

/-- Observable side effects of the orchestrator before the decode loop:
creating the side-channel temp file and spawning the process, in order. -/
inductive Effect where
  | createTempFile
  | spawnProcess
deriving DecidableEq

/-- Behavior of the external process during one run, an input to the model:
the tagged lines the multiplexer delivers, whether `cmd.Wait` returned an
error, the value of `ctx.Err()` observed at that moment, and the content of
the side-channel output file (none when unreadable). -/
structure ProcessRun where
  lines : List StreamLine := []
  waitErr : Bool := false
  ctxErr : Option String := none
  sideFile : Option String := none

/-- An ASCII whitespace character (the whitespace classes relevant to the
trimming check; Go `strings.TrimSpace` uses Unicode whitespace, of which
these are the ones occurring in line-oriented CLI output). -/
def isSpaceChar (c : Char) : Bool :=
  c = ' ' || c = '\t' || c = '\n' || c = '\r'

/-- Go `strings.TrimSpace`: leading and trailing whitespace removed. -/
def trimSpace (s : String) : String :=
  String.mk (((s.data.dropWhile isSpaceChar).reverse.dropWhile isSpaceChar).reverse)

/-- The codex success-path result text (src/codex/codex.go, `Run`): the
side-channel file content when it reads successfully and is non-empty after
whitespace trimming, otherwise the accumulated streamed assistant text. -/
def finalText (assistantText : String) (sideFile : Option String) : String :=
  match sideFile with
  | some data => if trimSpace data ≠ "" then data else assistantText
  | none => assistantText

/-- Everything observable about one codex `Run` invocation. -/
structure RunOutcome where
  effects : List Effect
  events : List Event
  tee : List String
  completions : List CompletionRecord
  result : RunResult
deriving DecidableEq

/-- Go `Run` from src/codex/codex.go: validate options (failing fast before
any side effect), resolve model and handler, decode the multiplexed lines,
then finalize on process exit — cancellation first, then the failure path
(synthesized `ResultError` guarded by `resultEmitted`, error completion
record, wrapped exit error), then the success path (side-channel-preferring
result text, synthesized `Result` guarded by `resultEmitted`, success
completion record). -/
def codexRun (c : Client) (cfg : RunConfig) (prompt : String) (proc : ProcessRun) :
    RunOutcome :=
  match validateRunConfig cfg with
  | some opt => ⟨[], [], [], [], .err (.unsupportedOption opt)⟩
  | none =>
    let model := if cfg.model ≠ "" then cfg.model else c.defaultModel
    let handlerPresent := cfg.hasEventHandler || c.hasDefaultHandler
    let d := codexDecode handlerPresent cfg.hasOutputStream {} "" proc.lines
    if proc.waitErr then
      match proc.ctxErr with
      | some e => ⟨[.createTempFile, .spawnProcess], d.events, d.tee, [],
          .err (.ctxCanceled e)⟩
      | none =>
        ⟨[.createTempFile, .spawnProcess],
          d.events ++ (if handlerPresent && !d.state.resultEmitted then
            [{ type := .resultError, text := d.state.lastError }] else []),
          d.tee,
          (if c.hasObservability then
            [{ traceID := cfg.traceID, sessionID := d.state.sessionID,
               prompt := prompt, response := d.state.lastError, model := model,
               costUSD := d.state.costUSD, durationMS := d.state.durationMS,
               numTurns := d.state.numTurns, isError := true }] else []),
          .err (.exitError d.stderrBuf)⟩
    else
      let text := finalText d.state.assistantText proc.sideFile
      ⟨[.createTempFile, .spawnProcess],
        d.events ++ (if handlerPresent && !d.state.resultEmitted then
          [{ type := .result, text := text, costUSD := d.state.costUSD,
             duration := d.state.durationMS, numTurns := d.state.numTurns }] else []),
        d.tee,
        (if c.hasObservability then
          [{ traceID := cfg.traceID, sessionID := d.state.sessionID,
             prompt := prompt, response := text, model := model,
             costUSD := d.state.costUSD, durationMS := d.state.durationMS,
             numTurns := d.state.numTurns, isError := false }] else []),
        .ok text⟩

/-- Go `contentBlock` (claude stream schema): one nested content block of an
assistant or user envelope.  `Input` (opaque raw JSON) is omitted. -/
structure ContentBlock where
  type : String := ""
  text : String := ""
  id : String := ""
  name : String := ""
  toolUseID : String := ""
  content : String := ""
deriving DecidableEq

/-- Go `streamEvent` (claude stream schema): the single self-describing
envelope decoded from one stdout line. -/
structure StreamEvent where
  type : String := ""
  subtype : String := ""
  sessionID : String := ""
  message : Option (List ContentBlock) := none
  result : String := ""
  costUSD : Rat := 0
  durationMS : Int := 0
  numTurns : Int := 0
  isError : Bool := false
deriving DecidableEq

/-- The loop-local state of the claude `Run` decode loop: the captured
result text and session id. -/
structure ClaudeState where
  resultText : String := ""
  sessionID : String := ""
deriving DecidableEq

/-- The run-level environment of a claude `Run`: resolved handler, output
stream and observability presence, resolved model, prompt and trace id. -/
structure ClaudeEnv where
  handlerPresent : Bool := false
  outputStreamPresent : Bool := false
  obsPresent : Bool := false
  model : String := ""
  prompt : String := ""
  traceID : String := ""

/-- Go claude `result` branch error flag: the explicit flag or the
subtype value "error". -/
def claudeIsError (ev : StreamEvent) : Bool :=
  ev.isError || ev.subtype == "error"

/-- Handler events and tee writes of one content block of an `assistant`
envelope ("text" and "tool_use" blocks; others are ignored). -/
def assistantBlockOut (handlerPresent outputStreamPresent : Bool) (b : ContentBlock) :
    List Event × List String :=
  if b.type = "text" then
    (if handlerPresent then [{ type := .assistant, text := b.text }] else [],
      if outputStreamPresent then [b.text] else [])
  else if b.type = "tool_use" then
    (if handlerPresent then [{ type := .toolUse, toolName := b.name, toolID := b.id }]
      else [], [])
  else ([], [])

/-- Events and tee writes of all content blocks of an `assistant` envelope,
in block order. -/
def assistantBlocksOut (handlerPresent outputStreamPresent : Bool)
    (blocks : List ContentBlock) : List Event × List String :=
  ((blocks.map (fun b => (assistantBlockOut handlerPresent outputStreamPresent b).1)).flatten,
    (blocks.map (fun b => (assistantBlockOut handlerPresent outputStreamPresent b).2)).flatten)

/-- Handler events for the `tool_result` blocks of a `user` envelope. -/
def toolResultEvents (handlerPresent : Bool) (blocks : List ContentBlock) : List Event :=
  (blocks.map (fun b =>
    if b.type = "tool_result" then
      if handlerPresent then
        [{ type := .toolResult, text := b.content, toolID := b.toolUseID }]
      else []
    else [])).flatten

/-- Go `hadToolResults`: some block of the `user` envelope is a tool result. -/
def hadToolResults (blocks : List ContentBlock) : Bool :=
  blocks.any (fun b => b.type = "tool_result")

/-- One iteration of the claude decode loop (src/claude.go, `Run`), on an
envelope that decoded successfully: the switch over the `type` field.
Returns the updated loop state, handler events, tee writes and completion
records dispatched from this line, in order. -/
def claudeHandleLine (env : ClaudeEnv) (st : ClaudeState) (ev : StreamEvent) :
    ClaudeState × List Event × List String × List CompletionRecord :=
  if ev.type = "system" then
    ((if ev.sessionID ≠ "" then { st with sessionID := ev.sessionID } else st),
      (if env.handlerPresent then
        { type := .system, sessionID := ev.sessionID, subtype := ev.subtype } ::
          (if ev.subtype = "init" then [{ type := .assistantStart }] else [])
      else []), [], [])
  else if ev.type = "assistant" then
    match ev.message with
    | some blocks =>
      let r := assistantBlocksOut env.handlerPresent env.outputStreamPresent blocks
      (st, r.1, r.2, [])
    | none => (st, [], [], [])
  else if ev.type = "user" then
    match ev.message with
    | some blocks =>
      (st, toolResultEvents env.handlerPresent blocks ++
        (if hadToolResults blocks && env.handlerPresent then
          [{ type := .assistantStart }] else []), [], [])
    | none => (st, [], [], [])
  else if ev.type = "result" then
    ({ st with resultText := ev.result },
      (if env.handlerPresent then
        [{ type := if claudeIsError ev then .resultError else .result,
           text := ev.result, subtype := ev.subtype, costUSD := ev.costUSD,
           duration := ev.durationMS, numTurns := ev.numTurns,
           isError := claudeIsError ev }] else []), [],
      (if env.obsPresent then
        [{ traceID := env.traceID, sessionID := st.sessionID, prompt := env.prompt,
           response := ev.result, model := env.model, costUSD := ev.costUSD,
           durationMS := ev.durationMS, numTurns := ev.numTurns,
           isError := claudeIsError ev }] else []))
  else (st, [], [], [])

/-- Result of the claude decode loop: final loop state plus the ordered
events, tee writes and completion records of the whole stream. -/
structure ClaudeDecodeOut where
  state : ClaudeState
  events : List Event
  tee : List String
  completions : List CompletionRecord

/-- The claude decode loop over stdout lines.  A line is `none` when
`json.Unmarshal` into `streamEvent` failed (malformed JSON or an
incompatible shape); such a line is skipped with no effect. -/
def claudeDecode (env : ClaudeEnv) (st : ClaudeState) :
    List (Option StreamEvent) → ClaudeDecodeOut
  | [] => ⟨st, [], [], []⟩
  | none :: rest => claudeDecode env st rest
  | some ev :: rest =>
    let r := claudeHandleLine env st ev
    let out := claudeDecode env r.1 rest
    ⟨out.state, r.2.1 ++ out.events, r.2.2.1 ++ out.tee, r.2.2.2 ++ out.completions⟩

/-- Go `Run` from src/claude.go, from the start of the decode loop on: the
loop folds the decoded stdout lines; then `cmd.Wait` is checked — a wait
error with the context canceled returns the context error directly, a wait
error otherwise returns the wrapped exit error carrying the stderr text,
and a clean exit returns the captured result text.  No terminal event and
no completion record is dispatched outside the decode loop. -/
def claudeRun (env : ClaudeEnv) (lines : List (Option StreamEvent))
    (waitErr : Bool) (ctxErr : Option String) (stderrText : String) :
    ClaudeDecodeOut × RunResult :=
  let d := claudeDecode env {} lines
  if waitErr then
    match ctxErr with
    | some e => (d, .err (.ctxCanceled e))
    | none => (d, .err (.exitError stderrText))
  else (d, .ok d.state.resultText)

/-- The bounded maximum line size both variants give `bufio.Scanner`. -/
def maxScanTokenSize : Nat := 1024 * 1024

/-- One source of Go bufio.Scanner with a bounded buffer: lines are
delivered in order until the first line whose size exceeds the bound; at
that point `Scan` reports `ErrTooLong` and scanning of that source stops
(no later line of that source is delivered).  The scanner never crashes. -/
def scanLines (maxSize : Nat) : List (List Char) → List (List Char)
  | [] => []
  | l :: rest => if maxSize < l.length then [] else l :: scanLines maxSize rest

/-- A tagged line as placed on the multiplexer channel. -/
structure TaggedLine where
  body : List Char
  fromStderr : Bool
deriving DecidableEq

/-- Go `streamLines` from src/codex/codex.go: one scanner per source feeding
one channel, closed after both finish.  Cross-source interleaving is
nondeterministic and only intra-source order is guaranteed, so the model
fixes one representative interleaving (all stdout lines, then all stderr
lines); every property stated about it is per-source. -/
def streamLines (stdoutLines stderrLines : List (List Char)) : List TaggedLine :=
  (scanLines maxScanTokenSize stdoutLines).map (fun l => ⟨l, false⟩) ++
    (scanLines maxScanTokenSize stderrLines).map (fun l => ⟨l, true⟩)

/-- A terminal event: `Result` or `ResultError`. -/
def isTerminalEvent (e : Event) : Bool :=
  match e.type with
  | .result => true
  | .resultError => true
  | _ => false

/-- An event of kind `Result` (the success terminal event). -/
def isResultEvent (e : Event) : Bool :=
  match e.type with
  | .result => true
  | _ => false

/-- A decoded codex value that the adapter treats as a terminal line: a
JSON object whose type string is exactly "turn.failed" (the only decoded
event kind that emits a terminal event in the codex adapter). -/
def isTerminalValue : JSON → Bool
  | .obj payload => jString payload "type" == "turn.failed"
  | _ => false

/-- A multiplexed codex line that decodes to a terminal event. -/
def isTerminalLine (l : StreamLine) : Bool :=
  match l.body with
  | .value v => isTerminalValue v
  | .malformed _ => false

/-- A decoded claude stdout line of kind `result` (the only decoded kind
that emits a terminal event in the claude adapter). -/
def isClaudeTerminalLine : Option StreamEvent → Bool
  | some ev => ev.type == "result"
  | none => false

/-- Whether a decoded JSON value is an object (`json.Unmarshal` into
`map[string]any` succeeds exactly on objects). -/
def isObjValue : JSON → Bool
  | .obj _ => true
  | _ => false

/-- The error message a codex `turn.failed` line produces: the extracted
message, or the generic failure string when extraction yields nothing. -/
def codexFailMessage (payload : List (String × JSON)) : String :=
  if extractErrorMessage payload = "" then "codex run failed"
  else extractErrorMessage payload

/-- Sample codex line: `{"type":"thread.started","thread_id":"t1"}`. -/
def sampleThreadStarted : StreamLine :=
  ⟨.value (.obj [("type", .str "thread.started"), ("thread_id", .str "t1")]), false⟩

/-- Sample codex line: `{"type":"turn.started"}`. -/
def sampleTurnStarted : StreamLine :=
  ⟨.value (.obj [("type", .str "turn.started")]), false⟩

/-- Sample codex line: `{"type":"assistant.message.delta","delta":...}`. -/
def sampleDelta (t : String) : StreamLine :=
  ⟨.value (.obj [("type", .str "assistant.message.delta"), ("delta", .str t)]), false⟩

/-- Sample codex line: `{"type":"turn.completed","duration_ms":12,"cost_usd":0.001}`. -/
def sampleTurnCompleted : StreamLine :=
  ⟨.value (.obj [("type", .str "turn.completed"), ("duration_ms", .num 12),
    ("cost_usd", .num 0.001)]), false⟩

/-- Sample codex stderr line: `{"type":"turn.failed","error":{"message":m}}`. -/
def sampleTurnFailed (m : String) : StreamLine :=
  ⟨.value (.obj [("type", .str "turn.failed"),
    ("error", .obj [("message", .str m)])]), true⟩

/-- The stream of the spec's fallback-synthesis scenario: thread start, turn
start, two assistant deltas, turn completion; clean exit; the side-channel
file holds "hello world". -/
def sampleScenario : ProcessRun :=
  { lines := [sampleThreadStarted, sampleTurnStarted, sampleDelta "hello ",
      sampleDelta "world", sampleTurnCompleted],
    sideFile := some "hello world" }

/-- Sample claude `result` envelope with no error flag. -/
def sampleResultEnvelope : StreamEvent :=
  { type := "result", subtype := "success", result := "done",
    costUSD := 3, durationMS := 1500, numTurns := 2 }

theorem harvestCostDuration_resultEmitted (s : RunState) (p : List (String × JSON)) :
    (harvestCostDuration s p).resultEmitted = s.resultEmitted := by
  unfold harvestCostDuration
  cases hc : floatField p "cost_usd" <;> cases hd : int64Field p "duration_ms" <;> simp

theorem harvestCostDuration_costUSD (s : RunState) (p : List (String × JSON)) (q : Rat)
    (hq : floatField p "cost_usd" = some q) :
    (harvestCostDuration s p).costUSD = q := by
  unfold harvestCostDuration
  rw [hq]
  cases hd : int64Field p "duration_ms" <;> simp

theorem harvestCostDuration_durationMS (s : RunState) (p : List (String × JSON)) (d : Int)
    (hd : int64Field p "duration_ms" = some d) :
    (harvestCostDuration s p).durationMS = d := by
  unfold harvestCostDuration
  rw [hd]

theorem switchStep_resultEmitted_of_ne (s : RunState) (t : String)
    (p : List (String × JSON)) (h : Bool) (ht : t ≠ "turn.failed") :
    (switchStep s t p h).1.resultEmitted = s.resultEmitted := by
  unfold switchStep
  split_ifs <;> rfl

theorem switchStep_tf (s : RunState) (p : List (String × JSON)) (h : Bool) :
    switchStep s "turn.failed" p h =
      ({ s with lastError := codexFailMessage p, resultEmitted := true },
        if h then [{ type := .resultError, text := codexFailMessage p, isError := true }]
        else []) := by
  rfl

theorem switchStep_terminal_count_of_ne (s : RunState) (t : String)
    (p : List (String × JSON)) (h : Bool) (ht : t ≠ "turn.failed") :
    (switchStep s t p h).2.countP isTerminalEvent = 0 := by
  unfold switchStep
  split_ifs <;> rfl

theorem switchStep_not_result (s : RunState) (t : String) (p : List (String × JSON))
    (h : Bool) : ∀ e ∈ (switchStep s t p h).2, isResultEvent e = false := by
  unfold switchStep
  split_ifs <;> cases h <;> simp_all [isResultEvent]

theorem switchStep_costUSD (s : RunState) (t : String) (p : List (String × JSON))
    (h : Bool) : (switchStep s t p h).1.costUSD = s.costUSD := by
  unfold switchStep
  split_ifs <;> rfl

theorem switchStep_durationMS (s : RunState) (t : String) (p : List (String × JSON))
    (h : Bool) : (switchStep s t p h).1.durationMS = s.durationMS := by
  unfold switchStep
  split_ifs <;> rfl

theorem assistantTextStep_state (s : RunState) (t : String) (p : List (String × JSON))
    (h o : Bool) :
    (assistantTextStep s t p h o).1 =
      { s with assistantText := (assistantTextStep s t p h o).1.assistantText } := by
  unfold assistantTextStep
  split_ifs <;> rfl

theorem assistantTextStep_events (s : RunState) (t : String) (p : List (String × JSON))
    (h o : Bool) :
    ∀ e ∈ (assistantTextStep s t p h o).2.1, e.type = EventType.assistant := by
  unfold assistantTextStep
  split_ifs <;> cases h <;> simp_all

theorem assistantTextStep_terminal_count (s : RunState) (t : String)
    (p : List (String × JSON)) (h o : Bool) :
    (assistantTextStep s t p h o).2.1.countP isTerminalEvent = 0 := by
  rw [List.countP_eq_zero]
  intro e he
  have := assistantTextStep_events s t p h o e he
  simp [isTerminalEvent, this]

theorem handleJSONLine_resultEmitted (s : RunState) (v : JSON) (h o : Bool) :
    (handleJSONLine s v h o).1.resultEmitted = (s.resultEmitted || isTerminalValue v) := by
  cases v with
  | obj payload =>
    by_cases ht : jString payload "type" = "turn.failed"
    · simp only [handleJSONLine, isTerminalValue, ht]
      rw [assistantTextStep_state]
      simp [harvestCostDuration_resultEmitted, switchStep_tf]
    · simp only [handleJSONLine, isTerminalValue]
      rw [assistantTextStep_state]
      simp [harvestCostDuration_resultEmitted, switchStep_resultEmitted_of_ne _ _ _ _ ht, ht]
  | null => simp [handleJSONLine, isTerminalValue]
  | bool b => simp [handleJSONLine, isTerminalValue]
  | num q => simp [handleJSONLine, isTerminalValue]
  | str t => simp [handleJSONLine, isTerminalValue]
  | arr xs => simp [handleJSONLine, isTerminalValue]

theorem handleJSONLine_terminal_count (s : RunState) (v : JSON) (h o : Bool) :
    (handleJSONLine s v h o).2.1.countP isTerminalEvent =
      (if h && isTerminalValue v then 1 else 0) := by
  cases v with
  | obj payload =>
    by_cases ht : jString payload "type" = "turn.failed"
    · simp only [handleJSONLine, isTerminalValue, ht]
      rw [List.countP_append, assistantTextStep_terminal_count, switchStep_tf]
      cases h <;> simp [isTerminalEvent]
    · simp only [handleJSONLine, isTerminalValue]
      rw [List.countP_append, assistantTextStep_terminal_count,
        switchStep_terminal_count_of_ne _ _ _ _ ht]
      simp [ht]
  | null => simp [handleJSONLine, isTerminalValue]
  | bool b => simp [handleJSONLine, isTerminalValue]
  | num q => simp [handleJSONLine, isTerminalValue]
  | str t => simp [handleJSONLine, isTerminalValue]
  | arr xs => simp [handleJSONLine, isTerminalValue]

theorem handleJSONLine_not_result (s : RunState) (v : JSON) (h o : Bool) :
    ∀ e ∈ (handleJSONLine s v h o).2.1, isResultEvent e = false := by
  cases v with
  | obj payload =>
    intro e he
    simp only [handleJSONLine, List.mem_append] at he
    rcases he with he | he
    · exact switchStep_not_result _ _ _ _ e he
    · have := assistantTextStep_events _ _ _ _ _ e he
      simp [isResultEvent, this]
  | null => simp [handleJSONLine]
  | bool b => simp [handleJSONLine]
  | num q => simp [handleJSONLine]
  | str t => simp [handleJSONLine]
  | arr xs => simp [handleJSONLine]

theorem handleJSONLine_costUSD (s : RunState) (payload : List (String × JSON))
    (h o : Bool) (q : Rat) (hq : floatField payload "cost_usd" = some q) :
    (handleJSONLine s (.obj payload) h o).1.costUSD = q := by
  simp only [handleJSONLine]
  rw [assistantTextStep_state]
  simp [harvestCostDuration_costUSD _ _ _ hq]

theorem handleJSONLine_durationMS (s : RunState) (payload : List (String × JSON))
    (h o : Bool) (d : Int) (hd : int64Field payload "duration_ms" = some d) :
    (handleJSONLine s (.obj payload) h o).1.durationMS = d := by
  simp only [handleJSONLine]
  rw [assistantTextStep_state]
  simp [harvestCostDuration_durationMS _ _ _ hd]

theorem handleJSONLine_tf_event (s : RunState) (payload : List (String × JSON))
    (o : Bool) (ht : jString payload "type" = "turn.failed") :
    ({ type := .resultError, text := codexFailMessage payload, isError := true } : Event) ∈
      (handleJSONLine s (.obj payload) true o).2.1 := by
  simp only [handleJSONLine, ht]
  rw [switchStep_tf]
  simp

theorem codexDecode_resultEmitted (h o : Bool) (ls : List StreamLine) (s : RunState)
    (buf : String) :
    (codexDecode h o s buf ls).state.resultEmitted =
      (s.resultEmitted || ls.any isTerminalLine) := by
  induction ls generalizing s buf with
  | nil => simp [codexDecode]
  | cons l rest ih =>
    cases hb : l.body with
    | malformed t => simp [codexDecode, hb, ih, isTerminalLine]
    | value v =>
      simp [codexDecode, hb, ih, isTerminalLine, handleJSONLine_resultEmitted,
        Bool.or_assoc]

theorem codexDecode_terminal_count (h o : Bool) (ls : List StreamLine) (s : RunState)
    (buf : String) :
    (codexDecode h o s buf ls).events.countP isTerminalEvent =
      (if h then ls.countP isTerminalLine else 0) := by
  induction ls generalizing s buf with
  | nil => cases h <;> simp [codexDecode]
  | cons l rest ih =>
    cases hb : l.body with
    | malformed t => simp [codexDecode, hb, ih, isTerminalLine, List.countP_cons]
    | value v =>
      simp only [codexDecode, hb, List.countP_append, List.countP_cons, ih,
        handleJSONLine_terminal_count, isTerminalLine]
      cases h <;> cases hv : isTerminalValue v <;> simp [hv, Nat.add_comm]

theorem codexDecode_not_result (h o : Bool) (ls : List StreamLine) (s : RunState)
    (buf : String) :
    ∀ e ∈ (codexDecode h o s buf ls).events, isResultEvent e = false := by
  induction ls generalizing s buf with
  | nil => simp [codexDecode]
  | cons l rest ih =>
    cases hb : l.body with
    | malformed t =>
      intro e he
      simp only [codexDecode, hb] at he
      exact ih _ _ e he
    | value v =>
      intro e he
      simp only [codexDecode, hb, List.mem_append] at he
      rcases he with he | he
      · exact handleJSONLine_not_result _ _ _ _ e he
      · exact ih _ _ e he

theorem codexDecode_append (h o : Bool) (xs ys : List StreamLine) (s : RunState)
    (buf : String) :
    codexDecode h o s buf (xs ++ ys) =
      ⟨(codexDecode h o (codexDecode h o s buf xs).state
          (codexDecode h o s buf xs).stderrBuf ys).state,
        (codexDecode h o (codexDecode h o s buf xs).state
          (codexDecode h o s buf xs).stderrBuf ys).stderrBuf,
        (codexDecode h o s buf xs).events ++
          (codexDecode h o (codexDecode h o s buf xs).state
            (codexDecode h o s buf xs).stderrBuf ys).events,
        (codexDecode h o s buf xs).tee ++
          (codexDecode h o (codexDecode h o s buf xs).state
            (codexDecode h o s buf xs).stderrBuf ys).tee⟩ := by
  induction xs generalizing s buf with
  | nil => simp [codexDecode]
  | cons l rest ih =>
    cases hb : l.body with
    | malformed t => simp [codexDecode, hb, ih]
    | value v => simp [codexDecode, hb, ih]

theorem codexDecode_buf_irrel (h o : Bool) (ls : List StreamLine) (s : RunState)
    (buf1 buf2 : String) :
    (codexDecode h o s buf1 ls).state = (codexDecode h o s buf2 ls).state ∧
    (codexDecode h o s buf1 ls).events = (codexDecode h o s buf2 ls).events ∧
    (codexDecode h o s buf1 ls).tee = (codexDecode h o s buf2 ls).tee := by
  induction ls generalizing s buf1 buf2 with
  | nil => simp [codexDecode]
  | cons l rest ih =>
    cases hb : l.body with
    | malformed t =>
      simp only [codexDecode, hb]
      exact ih _ _ _
    | value v =>
      simp only [codexDecode, hb]
      rcases ih (handleJSONLine s v h o).1 buf1 buf2 with ⟨h1, h2, h3⟩
      exact ⟨h1, by rw [h2], by rw [h3]⟩

theorem assistantBlockOut_not_terminal (h o : Bool) (b : ContentBlock) :
    ∀ e ∈ (assistantBlockOut h o b).1, isTerminalEvent e = false := by
  unfold assistantBlockOut
  split_ifs <;> simp_all [isTerminalEvent]

theorem assistantBlocksOut_not_terminal (h o : Bool) (blocks : List ContentBlock) :
    ∀ e ∈ (assistantBlocksOut h o blocks).1, isTerminalEvent e = false := by
  intro e he
  simp only [assistantBlocksOut, List.mem_flatten, List.mem_map] at he
  rcases he with ⟨l, ⟨b, hb, rfl⟩, hel⟩
  exact assistantBlockOut_not_terminal h o b e hel

theorem toolResultEvents_not_terminal (h : Bool) (blocks : List ContentBlock) :
    ∀ e ∈ toolResultEvents h blocks, isTerminalEvent e = false := by
  intro e he
  simp only [toolResultEvents, List.mem_flatten, List.mem_map] at he
  rcases he with ⟨l, ⟨b, hb, rfl⟩, hel⟩
  split_ifs at hel <;> simp_all [isTerminalEvent]

theorem claudeHandleLine_result_eq (env : ClaudeEnv) (st : ClaudeState)
    (ev : StreamEvent) (ht : ev.type = "result") :
    claudeHandleLine env st ev =
      ({ st with resultText := ev.result },
        (if env.handlerPresent then
          [{ type := if claudeIsError ev then .resultError else .result,
             text := ev.result, subtype := ev.subtype, costUSD := ev.costUSD,
             duration := ev.durationMS, numTurns := ev.numTurns,
             isError := claudeIsError ev }] else []), [],
        (if env.obsPresent then
          [{ traceID := env.traceID, sessionID := st.sessionID, prompt := env.prompt,
             response := ev.result, model := env.model, costUSD := ev.costUSD,
             durationMS := ev.durationMS, numTurns := ev.numTurns,
             isError := claudeIsError ev }] else [])) := by
  unfold claudeHandleLine
  simp [ht]

theorem claudeHandleLine_of_ne_result (env : ClaudeEnv) (st : ClaudeState)
    (ev : StreamEvent) (ht : ev.type ≠ "result") :
    (claudeHandleLine env st ev).1.resultText = st.resultText ∧
    (claudeHandleLine env st ev).2.1.countP isTerminalEvent = 0 ∧
    (claudeHandleLine env st ev).2.2.2 = [] := by
  unfold claudeHandleLine
  cases hm : ev.message with
  | none => split_ifs <;> simp_all [isTerminalEvent]
  | some blocks =>
    have hA : (assistantBlocksOut env.handlerPresent env.outputStreamPresent
        blocks).1.countP isTerminalEvent = 0 :=
      List.countP_eq_zero.mpr (fun e he => by
        rw [assistantBlocksOut_not_terminal env.handlerPresent
          env.outputStreamPresent blocks e he]
        simp)
    have hT : (toolResultEvents env.handlerPresent blocks).countP isTerminalEvent = 0 :=
      List.countP_eq_zero.mpr (fun e he => by
        rw [toolResultEvents_not_terminal env.handlerPresent blocks e he]
        simp)
    split_ifs <;> simp_all [isTerminalEvent, List.countP_append]

theorem claudeDecode_append (env : ClaudeEnv) (xs ys : List (Option StreamEvent))
    (st : ClaudeState) :
    claudeDecode env st (xs ++ ys) =
      ⟨(claudeDecode env (claudeDecode env st xs).state ys).state,
        (claudeDecode env st xs).events ++
          (claudeDecode env (claudeDecode env st xs).state ys).events,
        (claudeDecode env st xs).tee ++
          (claudeDecode env (claudeDecode env st xs).state ys).tee,
        (claudeDecode env st xs).completions ++
          (claudeDecode env (claudeDecode env st xs).state ys).completions⟩ := by
  induction xs generalizing st with
  | nil => simp [claudeDecode]
  | cons l rest ih =>
    cases l with
    | none => simp [claudeDecode, ih]
    | some ev => simp [claudeDecode, ih]

theorem claudeDecode_terminal_count (env : ClaudeEnv)
    (ls : List (Option StreamEvent)) (st : ClaudeState) :
    (claudeDecode env st ls).events.countP isTerminalEvent =
      (if env.handlerPresent then ls.countP isClaudeTerminalLine else 0) := by
  induction ls generalizing st with
  | nil => cases env.handlerPresent <;> simp [claudeDecode]
  | cons l rest ih =>
    cases l with
    | none =>
      simp only [claudeDecode, ih, List.countP_cons, isClaudeTerminalLine]
      simp
    | some ev =>
      simp only [claudeDecode, List.countP_append, List.countP_cons, ih]
      by_cases ht : ev.type = "result"
      · rw [claudeHandleLine_result_eq env st ev ht]
        have hl : isClaudeTerminalLine (some ev) = true := by
          simp [isClaudeTerminalLine, ht]
        rw [hl]
        cases hp : env.handlerPresent
        · simp
        · cases hc : claudeIsError ev <;>
            simp [isTerminalEvent, Nat.add_comm]
      · rcases claudeHandleLine_of_ne_result env st ev ht with ⟨h1, h2, h3⟩
        have hl : isClaudeTerminalLine (some ev) = false := by
          simp [isClaudeTerminalLine, ht]
        rw [h2, hl]
        cases hp : env.handlerPresent <;> simp

theorem claudeDecode_completions_count (env : ClaudeEnv)
    (ls : List (Option StreamEvent)) (st : ClaudeState) :
    (claudeDecode env st ls).completions.length =
      (if env.obsPresent then ls.countP isClaudeTerminalLine else 0) := by
  induction ls generalizing st with
  | nil => cases env.obsPresent <;> simp [claudeDecode]
  | cons l rest ih =>
    cases l with
    | none =>
      simp only [claudeDecode, ih, List.countP_cons, isClaudeTerminalLine]
      simp
    | some ev =>
      simp only [claudeDecode, List.length_append, List.countP_cons, ih]
      by_cases ht : ev.type = "result"
      · rw [claudeHandleLine_result_eq env st ev ht]
        have hl : isClaudeTerminalLine (some ev) = true := by
          simp [isClaudeTerminalLine, ht]
        rw [hl]
        cases ho : env.obsPresent <;> simp [Nat.add_comm]
      · rcases claudeHandleLine_of_ne_result env st ev ht with ⟨h1, h2, h3⟩
        have hl : isClaudeTerminalLine (some ev) = false := by
          simp [isClaudeTerminalLine, ht]
        rw [h3, hl]
        cases ho : env.obsPresent <;> simp

theorem claudeDecode_resultText_of_no_result (env : ClaudeEnv)
    (ls : List (Option StreamEvent)) (st : ClaudeState)
    (h : ls.countP isClaudeTerminalLine = 0) :
    (claudeDecode env st ls).state.resultText = st.resultText := by
  induction ls generalizing st with
  | nil => simp [claudeDecode]
  | cons l rest ih =>
    rw [List.countP_cons] at h
    cases l with
    | none =>
      simp only [claudeDecode]
      exact ih _ (by omega)
    | some ev =>
      have ht : ev.type ≠ "result" := by
        intro hc
        have : isClaudeTerminalLine (some ev) = true := by
          simp [isClaudeTerminalLine, hc]
        rw [this] at h
        simp at h
      rcases claudeHandleLine_of_ne_result env st ev ht with ⟨h1, h2, h3⟩
      simp only [claudeDecode]
      rw [ih _ (by omega), h1]

/-- C2: for every run in which the governing context is already canceled at
the moment the process wait resolves with an error, `Run` returns the
context's cancellation error directly (not wrapped in an `ExitError`), in
both provider variants. -/
theorem claim2_cancellation_precedence (c : Client) (cfg : RunConfig) (prompt : String)
    (lines : List StreamLine) (sideFile : Option String) (e : String)
    (env : ClaudeEnv) (clines : List (Option StreamEvent)) (stderrText : String)
    (hvalid : validateRunConfig cfg = none) :
    (codexRun c cfg prompt ⟨lines, true, some e, sideFile⟩).result =
      .err (.ctxCanceled e) ∧
    (claudeRun env clines true (some e) stderrText).2 = .err (.ctxCanceled e) := by
  constructor
  · simp [codexRun, hvalid]
  · simp [claudeRun]

/-- Witness for C2 at concrete inputs. -/
theorem claim2_witness :
    (codexRun {} {} "p" ⟨[], true, some "context canceled", none⟩).result =
      .err (.ctxCanceled "context canceled") ∧
    (claudeRun {} [] true (some "context canceled") "").2 =
      .err (.ctxCanceled "context canceled") :=
  claim2_cancellation_precedence {} {} "p" [] none "context canceled" {} [] "" rfl

/-- C6: a codex run whose options include an unsupported option fails with
an `UnsupportedOptionError` naming the option, before any temp file is
created or process is spawned: the outcome carries no effects, no events,
no tee writes and no completion records. -/
theorem claim6_unsupported_option_fails_fast (c : Client) (cfg : RunConfig)
    (prompt : String) (proc : ProcessRun) (opt : String)
    (hopt : validateRunConfig cfg = some opt) :
    codexRun c cfg prompt proc =
      ⟨[], [], [], [], .err (.unsupportedOption opt)⟩ := by
  simp [codexRun, hopt]

/-- Witness for C6: a max-turns limit is rejected by name with no side
effects, even though the process would have produced lines. -/
theorem claim6_witness :
    validateRunConfig { maxTurns := 3 } = some "WithMaxTurns" ∧
    codexRun {} { maxTurns := 3 } "p" { lines := [sampleTurnStarted] } =
      ⟨[], [], [], [], .err (.unsupportedOption "WithMaxTurns")⟩ :=
  ⟨by decide,
    claim6_unsupported_option_fails_fast {} { maxTurns := 3 } "p"
      { lines := [sampleTurnStarted] } "WithMaxTurns" (by decide)⟩

/-- C9: on every decoded codex line (a JSON object), regardless of its
classification, present numeric `cost_usd` and `duration_ms` fields
overwrite the run state's cost and duration with the last-seen values —
whatever the prior state held, it is replaced, never summed; consequently a
run ending in such a line ends with exactly that line's values. -/
theorem claim9_cost_duration_last_write (s : RunState) (buf : String)
    (payload : List (String × JSON)) (h o fs : Bool) (q : Rat) (d : Int)
    (ls : List StreamLine)
    (hq : floatField payload "cost_usd" = some q)
    (hd : int64Field payload "duration_ms" = some d) :
    (handleJSONLine s (.obj payload) h o).1.costUSD = q ∧
    (handleJSONLine s (.obj payload) h o).1.durationMS = d ∧
    (codexDecode h o s buf (ls ++ [⟨.value (.obj payload), fs⟩])).state.costUSD = q ∧
    (codexDecode h o s buf (ls ++ [⟨.value (.obj payload), fs⟩])).state.durationMS = d := by
  refine ⟨handleJSONLine_costUSD s payload h o q hq,
    handleJSONLine_durationMS s payload h o d hd, ?_, ?_⟩
  all_goals
    rw [codexDecode_append]
    simp only [codexDecode]
  · exact handleJSONLine_costUSD _ payload h o q hq
  · exact handleJSONLine_durationMS _ payload h o d hd

/-- Witness for C9: two cost-bearing lines in sequence leave the last
line's values, not their sum. -/
theorem claim9_witness :
    (codexDecode true false {} ""
      [⟨.value (.obj [("type", .str "turn.completed"), ("cost_usd", .num 7),
          ("duration_ms", .num 40)]), false⟩,
        ⟨.value (.obj [("type", .str "other"), ("cost_usd", .num 2),
          ("duration_ms", .num 5)]), false⟩]).state.costUSD = 2 ∧
    (codexDecode true false {} ""
      [⟨.value (.obj [("type", .str "turn.completed"), ("cost_usd", .num 7),
          ("duration_ms", .num 40)]), false⟩,
        ⟨.value (.obj [("type", .str "other"), ("cost_usd", .num 2),
          ("duration_ms", .num 5)]), false⟩]).state.durationMS = 5 := by
  have h := claim9_cost_duration_last_write {} ""
    [("type", .str "other"), ("cost_usd", .num 2), ("duration_ms", .num 5)]
    true false false 2 5
    [⟨.value (.obj [("type", .str "turn.completed"), ("cost_usd", .num 7),
      ("duration_ms", .num 40)]), false⟩] (by decide) (by decide)
  exact ⟨h.2.2.1, h.2.2.2⟩

/-- C10: a codex stderr line whose bytes are valid JSON but not a JSON
object is silently discarded: no handler event, no tee write, no run-state
mutation, and — unlike non-JSON stderr text — no append to the stderr
diagnostic buffer; the rest of the stream is processed as if the line were
absent. -/
theorem claim10_valid_nonobject_stderr_dropped (h o : Bool) (s : RunState)
    (buf : String) (v : JSON) (rest : List StreamLine)
    (hv : isObjValue v = false) :
    codexDecode h o s buf (⟨.value v, true⟩ :: rest) = codexDecode h o s buf rest := by
  cases v <;> simp_all [isObjValue, codexDecode, handleJSONLine]

/-- Witness for C10: a bare JSON string on stderr leaves no trace at all. -/
theorem claim10_witness :
    codexDecode true true {} "" [⟨.value (.str "oops"), true⟩] =
      codexDecode true true {} "" [] :=
  claim10_valid_nonobject_stderr_dropped true true {} "" (.str "oops") [] (by decide)

/-- C4: a line that fails JSON decoding emits no handler event and does not
terminate the run — removing it from the stream leaves the run state, the
dispatched events and the tee writes of both variants unchanged (for the
codex variant only the stderr diagnostic buffer may differ), so all
subsequent valid lines are still processed normally. -/
theorem claim4_undecodable_line_skipped (h o : Bool) (xs ys : List StreamLine)
    (t : String) (fs : Bool) (env : ClaudeEnv) (cxs cys : List (Option StreamEvent)) :
    ((codexDecode h o {} "" (xs ++ ⟨.malformed t, fs⟩ :: ys)).events =
        (codexDecode h o {} "" (xs ++ ys)).events ∧
      (codexDecode h o {} "" (xs ++ ⟨.malformed t, fs⟩ :: ys)).state =
        (codexDecode h o {} "" (xs ++ ys)).state ∧
      (codexDecode h o {} "" (xs ++ ⟨.malformed t, fs⟩ :: ys)).tee =
        (codexDecode h o {} "" (xs ++ ys)).tee) ∧
    claudeDecode env {} (cxs ++ none :: cys) = claudeDecode env {} (cxs ++ cys) := by
  constructor
  · rw [codexDecode_append h o xs (⟨.malformed t, fs⟩ :: ys) {} "",
      codexDecode_append h o xs ys {} ""]
    have estep : codexDecode h o (codexDecode h o {} "" xs).state
        (codexDecode h o {} "" xs).stderrBuf (⟨.malformed t, fs⟩ :: ys) =
        codexDecode h o (codexDecode h o {} "" xs).state
          (if fs then (codexDecode h o {} "" xs).stderrBuf ++ t ++ "\n"
            else (codexDecode h o {} "" xs).stderrBuf) ys := by
      cases fs <;> simp [codexDecode]
    rw [estep]
    rcases codexDecode_buf_irrel h o ys (codexDecode h o {} "" xs).state
      (if fs then (codexDecode h o {} "" xs).stderrBuf ++ t ++ "\n"
        else (codexDecode h o {} "" xs).stderrBuf)
      (codexDecode h o {} "" xs).stderrBuf with ⟨hs, he, htee⟩
    exact ⟨by rw [he], by rw [hs], by rw [htee]⟩
  · rw [claudeDecode_append env cxs (none :: cys) {},
      claudeDecode_append env cxs cys {}]
    simp only [claudeDecode]

/-- C3: a codex run in which no terminal event was decoded and the process
exits zero synthesizes a `Result` event and returns success; the returned
text is `finalText`, i.e. the side-channel file content when the file read
succeeds and is non-empty after whitespace trimming, and the accumulated
streamed assistant text otherwise. -/
theorem claim3_fallback_synthesis (c : Client) (cfg : RunConfig) (prompt : String)
    (lines : List StreamLine) (sideFile : Option String)
    (hvalid : validateRunConfig cfg = none)
    (hhandler : (cfg.hasEventHandler || c.hasDefaultHandler) = true)
    (hnoterm : lines.any isTerminalLine = false) :
    (codexRun c cfg prompt ⟨lines, false, none, sideFile⟩).result =
      .ok (finalText (codexDecode true cfg.hasOutputStream {} "" lines).state.assistantText
        sideFile) ∧
    (codexRun c cfg prompt ⟨lines, false, none, sideFile⟩).events =
      (codexDecode true cfg.hasOutputStream {} "" lines).events ++
        [{ type := .result,
           text := finalText
             (codexDecode true cfg.hasOutputStream {} "" lines).state.assistantText sideFile,
           costUSD := (codexDecode true cfg.hasOutputStream {} "" lines).state.costUSD,
           duration := (codexDecode true cfg.hasOutputStream {} "" lines).state.durationMS,
           numTurns := (codexDecode true cfg.hasOutputStream {} "" lines).state.numTurns }] := by
  have hre : (codexDecode (cfg.hasEventHandler || c.hasDefaultHandler)
      cfg.hasOutputStream {} "" lines).state.resultEmitted = false := by
    rw [codexDecode_resultEmitted]
    simp [hnoterm]
  simp only [codexRun, hvalid, hhandler] at *
  simp [hre]

/-- Witness for C3: the spec's scenario — thread start, turn start, two
assistant deltas, turn completion, clean exit, side-channel file holding
"hello world" — returns `("hello world", nil)`. -/
theorem claim3_witness :
    (codexRun { hasDefaultHandler := true } {} "p" sampleScenario).result =
      .ok "hello world" := by
  have h := claim3_fallback_synthesis { hasDefaultHandler := true } {} "p"
    sampleScenario.lines (some "hello world") (by decide) (by decide) (by decide)
  exact h.1.trans (by decide)

/-- C7: when a codex `turn.failed` terminal error line is decoded from the
stream and the process exits zero, the provider-reported failure is
surfaced to the handler as a `ResultError` carrying the extracted message,
and it stays authoritative: no `Result` success event is ever dispatched in
that run (the exit-path synthesis is suppressed by `resultEmitted`). -/
theorem claim7_provider_failure_authoritative (c : Client) (cfg : RunConfig)
    (prompt : String) (xs ys : List StreamLine) (payload : List (String × JSON))
    (fs : Bool) (sideFile : Option String)
    (hvalid : validateRunConfig cfg = none)
    (hhandler : (cfg.hasEventHandler || c.hasDefaultHandler) = true)
    (ht : jString payload "type" = "turn.failed") :
    ({ type := .resultError, text := codexFailMessage payload, isError := true } : Event)
      ∈ (codexRun c cfg prompt
        ⟨xs ++ ⟨.value (.obj payload), fs⟩ :: ys, false, none, sideFile⟩).events ∧
    ∀ e ∈ (codexRun c cfg prompt
        ⟨xs ++ ⟨.value (.obj payload), fs⟩ :: ys, false, none, sideFile⟩).events,
      isResultEvent e = false := by
  have hterm : isTerminalLine ⟨.value (.obj payload), fs⟩ = true := by
    simp [isTerminalLine, isTerminalValue, ht]
  have hre : (codexDecode true cfg.hasOutputStream {} ""
      (xs ++ ⟨.value (.obj payload), fs⟩ :: ys)).state.resultEmitted = true := by
    rw [codexDecode_resultEmitted]
    simp [List.any_append, hterm]
  simp only [codexRun, hvalid, hhandler]
  rw [hre]
  simp only [Bool.not_true, Bool.and_false, Bool.false_eq_true, if_false,
    List.append_nil]
  constructor
  · rw [codexDecode_append]
    refine List.mem_append.mpr (Or.inr ?_)
    simp only [codexDecode]
    exact List.mem_append.mpr (Or.inl (handleJSONLine_tf_event _ payload _ ht))
  · intro e he
    exact codexDecode_not_result _ _ _ _ _ e he

/-- Witness for C7: a stream with one `turn.failed` line carrying message
"boom" and a clean exit. -/
theorem claim7_witness :
    ({ type := .resultError, text := "boom", isError := true } : Event) ∈
      (codexRun { hasDefaultHandler := true } {} "p"
        ⟨[sampleThreadStarted, sampleTurnFailed "boom"], false, none, none⟩).events := by
  have h := claim7_provider_failure_authoritative { hasDefaultHandler := true } {} "p"
    [sampleThreadStarted] [] [("type", .str "turn.failed"),
      ("error", .obj [("message", .str "boom")])] true none
    (by decide) (by decide) (by decide)
  exact h.1

/-- C8: a claude run whose stream contains exactly one decoded `result`
line, with its error flag computing false, followed by a zero process
exit, returns `(text, nil)` with `text` equal to that line's result text,
and dispatches exactly one completion record to the configured
observability sink, with `is_error = false`. -/
theorem claim8_result_line_success (env : ClaudeEnv) (xs ys : List (Option StreamEvent))
    (ev : StreamEvent) (stderrText : String)
    (hx : xs.countP isClaudeTerminalLine = 0)
    (hy : ys.countP isClaudeTerminalLine = 0)
    (ht : ev.type = "result")
    (herr : claudeIsError ev = false)
    (hobs : env.obsPresent = true) :
    (claudeRun env (xs ++ some ev :: ys) false none stderrText).2 = .ok ev.result ∧
    (claudeRun env (xs ++ some ev :: ys) false none stderrText).1.completions =
      [{ traceID := env.traceID,
         sessionID := (claudeDecode env {} xs).state.sessionID,
         prompt := env.prompt, response := ev.result, model := env.model,
         costUSD := ev.costUSD, durationMS := ev.durationMS,
         numTurns := ev.numTurns, isError := false }] := by
  have hxnil : (claudeDecode env {} xs).completions = [] := by
    rw [← List.length_eq_zero]
    rw [claudeDecode_completions_count, hx]
    simp
  constructor
  · simp only [claudeRun]
    rw [claudeDecode_append]
    simp only [claudeDecode]
    rw [claudeHandleLine_result_eq env _ ev ht]
    simp only []
    rw [claudeDecode_resultText_of_no_result env ys _ hy]
    simp
  · simp only [claudeRun]
    rw [claudeDecode_append]
    simp only [claudeDecode]
    rw [claudeHandleLine_result_eq env _ ev ht]
    have hynil : ∀ st, (claudeDecode env st ys).completions = [] := by
      intro st
      rw [← List.length_eq_zero, claudeDecode_completions_count, hy]
      simp
    simp [hxnil, hynil, hobs, herr]

/-- Witness for C8: a single result envelope with text "done". -/
theorem claim8_witness :
    (claudeRun { handlerPresent := true, obsPresent := true, model := "m",
                 prompt := "p", traceID := "tr" }
      [some sampleResultEnvelope] false none "").2 = .ok "done" ∧
    (claudeRun { handlerPresent := true, obsPresent := true, model := "m",
                 prompt := "p", traceID := "tr" }
      [some sampleResultEnvelope] false none "").1.completions =
      [{ traceID := "tr", sessionID := "", prompt := "p", response := "done",
         model := "m", costUSD := 3, durationMS := 1500, numTurns := 2,
         isError := false }] := by
  have h := claim8_result_line_success
    { handlerPresent := true, obsPresent := true, model := "m",
      prompt := "p", traceID := "tr" } [] [] sampleResultEnvelope ""
    (by decide) (by decide) (by decide) (by decide) (by decide)
  exact ⟨h.1, h.2.trans (by decide)⟩

/-- C1 counterexample: a codex run whose stream decodes two `turn.failed`
terminal lines dispatches two terminal events to the handler — the
`turn.failed` branch emits unconditionally, so the claim that at most one
terminal event is dispatched per run regardless of how many decoded
terminal lines appear is false on the code. -/
theorem claim1_counterexample :
    ((codexRun { hasDefaultHandler := true } {} "p"
      { lines := [sampleTurnFailed "first", sampleTurnFailed "second"] }).events.countP
        isTerminalEvent) = 2 := by
  decide

/-- C1 amended: at most one terminal event is dispatched per run provided
at most one decoded terminal line appears in the stream: the
`resultEmitted` guard keeps the codex exit-fallback path from adding a
second terminal event once a decoded one was emitted, and the claude
variant emits terminal events only from decoded `result` lines (none at
exit).  Each decoded terminal line beyond the first adds one more terminal
event. -/
theorem codexExitEvents_bound (hp o : Bool) (lines : List StreamLine) (x : Event)
    (hcount : lines.countP isTerminalLine ≤ 1) :
    ((codexDecode hp o {} "" lines).events ++
      (if hp && !(codexDecode hp o {} "" lines).state.resultEmitted then [x]
        else [])).countP isTerminalEvent ≤ 1 := by
  rw [List.countP_append, codexDecode_terminal_count, codexDecode_resultEmitted]
  simp only [Bool.false_or]
  cases hany : lines.any isTerminalLine with
  | false =>
    have h0 : lines.countP isTerminalLine = 0 :=
      List.countP_eq_zero.mpr (fun a hmem => by
        rw [List.any_eq_false] at hany
        simp [hany a hmem])
    cases hp <;> simp [h0, List.countP_cons]
    split_ifs <;> simp
  | true =>
    cases hp <;> simp_all

theorem claim1_at_most_one_terminal (c : Client) (cfg : RunConfig) (prompt : String)
    (proc : ProcessRun) (env : ClaudeEnv) (clines : List (Option StreamEvent))
    (waitErr : Bool) (ctxErr : Option String) (stderrText : String)
    (hcodex : proc.lines.countP isTerminalLine ≤ 1)
    (hclaude : clines.countP isClaudeTerminalLine ≤ 1) :
    (codexRun c cfg prompt proc).events.countP isTerminalEvent ≤ 1 ∧
    (claudeRun env clines waitErr ctxErr stderrText).1.events.countP
      isTerminalEvent ≤ 1 := by
  constructor
  · cases hv : validateRunConfig cfg with
    | some opt => simp [codexRun, hv]
    | none =>
      simp only [codexRun, hv]
      cases hw : proc.waitErr with
      | true =>
        rw [if_pos rfl]
        cases hctx : proc.ctxErr with
        | some e =>
          simp only [codexDecode_terminal_count]
          cases hp : (cfg.hasEventHandler || c.hasDefaultHandler) <;> simp_all
        | none =>
          exact codexExitEvents_bound _ _ _ _ hcodex
      | false =>
        rw [if_neg (by simp)]
        exact codexExitEvents_bound _ _ _ _ hcodex
  · simp only [claudeRun]
    cases waitErr with
    | true =>
      cases ctxErr <;>
        · rw [if_pos rfl]
          simp only [claudeDecode_terminal_count]
          cases hp : env.handlerPresent <;> simp_all
    | false =>
      rw [if_neg (by simp)]
      simp only [claudeDecode_terminal_count]
      cases hp : env.handlerPresent <;> simp_all

/-- Witness for C1 amended: one terminal line in each variant's stream. -/
theorem claim1_witness :
    (codexRun { hasDefaultHandler := true } {} "p"
      { lines := [sampleTurnFailed "boom"] }).events.countP isTerminalEvent ≤ 1 ∧
    (claudeRun { handlerPresent := true } [some sampleResultEnvelope]
      false none "").1.events.countP isTerminalEvent ≤ 1 :=
  claim1_at_most_one_terminal { hasDefaultHandler := true } {} "p"
    { lines := [sampleTurnFailed "boom"] } { handlerPresent := true }
    [some sampleResultEnvelope] false none "" (by decide) (by decide)

/-- C5 counterexample: a source whose first line exceeds the bounded
maximum line size delivers nothing at all — the later, well-sized line
of the same source is not delivered, contrary to the claim that only the
oversized line fails and scanning continues. -/
theorem claim5_counterexample :
    scanLines maxScanTokenSize
      [List.replicate (maxScanTokenSize + 1) 'a', ['o', 'k']] = [] := by
  have hlen : maxScanTokenSize < (List.replicate (maxScanTokenSize + 1) 'a').length := by
    rw [List.length_replicate]
    exact Nat.lt_succ_self _
  simp only [scanLines]
  rw [if_pos hlen]

/-- C5 amended: the scanner delivers exactly the longest prefix of a
source's lines that each fit the bounded maximum size; an oversized line
stops that source's scanning (it and every later line of that source are
dropped) without crashing, and the other source's delivered lines are
unaffected by it. -/
theorem claim5_oversized_line_stops_source (m : Nat) (src : List (List Char))
    (out1 out2 err : List (List Char)) :
    scanLines m src = src.takeWhile (fun l => l.length ≤ m) ∧
    (streamLines out1 err).filter (fun l => l.fromStderr) =
      (streamLines out2 err).filter (fun l => l.fromStderr) := by
  constructor
  · induction src with
    | nil => simp [scanLines]
    | cons l rest ih =>
      by_cases hl : m < l.length
      · rw [scanLines]
        simp [hl, List.takeWhile_cons, Nat.not_le.mpr hl]
      · rw [scanLines]
        simp [hl, List.takeWhile_cons, Nat.not_lt.mp hl, ih]
  · simp [streamLines, List.filter_append, List.filter_map, Function.comp_def]

end BelayKit
